import Mathlib

/-!
Shallow embedding of tiny-dfr's render/input orchestration engine
(src/main.rs) and proofs about it.

Modelling conventions:
* Rust `f64` arithmetic on coordinates and geometry is embedded as exact
  rational arithmetic (`ℚ`); decimal literals such as `0.09` become `9/100`.
* `as u16` / `as u32` casts of nonnegative floats truncate toward zero and
  are embedded as `Nat.floor` (with saturation for `u32` where modelled).
* Stateful code (the event loop) becomes explicit state passing on a
  `LoopState` record; the uinput device becomes the list of emitted
  `InputEvent`s returned alongside the new state.
* Cairo drawing calls are recorded as abstract `PaintOp`s; icon loading,
  which reads the filesystem, is abstracted as an oracle function passed to
  `initialize_layers` (only the `action`/`active`/`changed` fields of the
  constructed buttons matter for the claims).
-/

/-- The subset of the linux `Key` enum (from `input_linux`) that appears in
`src/main.rs`.  Equality of `u32` key codes is embedded as equality of
constructors (the code-to-constructor map is injective). -/
inductive Key where
  | Esc | F1 | F2 | F3 | F4 | F5 | F6 | F7 | F8 | F9 | F10 | F11 | F12
  | BrightnessDown | BrightnessUp | MicMute | Search | IllumDown | IllumUp
  | PreviousSong | PlayPause | NextSong | Mute | VolumeDown | VolumeUp
  | Prog1 | Prog2 | Prog3 | Prog4
  | Macro1 | Macro2 | Macro3 | Macro4
  | WWW | AllApplications | Calc | File
  | Time | Unknown | Fn
  deriving DecidableEq, Repr, Fintype

/-- Embeds `KeyState` from libinput: a keyboard key is either pressed or released. -/
inductive KeyState where
  | pressed
  | released
  deriving DecidableEq, Repr

/-- Embeds `ButtonImage` from src/main.rs lines 47-53.  `Svg`/`Png` carry runtime
handles irrelevant to the claims, so they are embedded as payload-free. -/
inductive ButtonImage where
  | text (s : String)
  | svg
  | png
  | time (use_24_hour : ℕ)
  | blank
  deriving DecidableEq, Repr

/-- Embeds `Button` from src/main.rs lines 55-60 (field order as in the source). -/
structure Button where
  image : ButtonImage
  changed : Bool
  active : Bool
  action : Key
  deriving DecidableEq, Repr

/-- Embeds `Button::new_text` (src/main.rs lines 63-70). -/
def Button.new_text (text : String) (action : Key) : Button :=
  ⟨ButtonImage.text text, false, false, action⟩

/-- Embeds `Button::new_icon` (src/main.rs lines 71-120).  The icon lookup walks
the filesystem (theme icon, `/usr/share/pixmaps`, text fallback); it is
abstracted as the oracle `iconImg icon_name app_icon icon_theme`.  The
`action`/`active`/`changed` fields are exactly as in the source. -/
def Button.new_icon (icon_name : String) (action : Key) (app_icon icon_theme : String)
    (iconImg : String → String → String → ButtonImage) : Button :=
  ⟨iconImg icon_name app_icon icon_theme, false, false, action⟩

/-- Embeds `Button::new_time` (src/main.rs lines 121-128). -/
def Button.new_time (use_24_hour : ℕ) : Button :=
  ⟨ButtonImage.time use_24_hour, false, false, Key.Time⟩

/-- Embeds `Button::new_blank` (src/main.rs lines 129-136). -/
def Button.new_blank : Button :=
  ⟨ButtonImage.blank, false, false, Key.Unknown⟩

/-- Event kinds written to the uinput device (`EventKind::Key` and
`EventKind::Synchronize` are the only ones the program uses). -/
inductive EvKind where
  | key
  | synchronize
  deriving DecidableEq, Repr

/-- One `input_event` written to the uinput device.  For key events the
code field is the `Key`; for the synchronize event the code is
`SynchronizeKind::Report`, embedded as `key := none`. -/
structure InputEvent where
  kind : EvKind
  key : Option Key
  value : ℤ
  deriving DecidableEq, Repr

/-- Embeds `toggle_key` (src/main.rs lines 456-467): one key event with the given
value immediately followed by one synchronize/report event. -/
def toggle_key (code : Key) (value : ℤ) : List InputEvent :=
  [⟨EvKind.key, some code, value⟩, ⟨EvKind.synchronize, none, 0⟩]

/-- Embeds `Button::set_active` (src/main.rs lines 248-258).  Returns the updated
button together with the events written to the uinput device
(`active as i32` is 1 for true, 0 for false). -/
def Button.set_active (b : Button) (active : Bool) : Button × List InputEvent :=
  if b.active ≠ active then
    ({ b with active := active, changed := true },
     toggle_key b.action (if active then 1 else 0))
  else
    (b, [])

/-- Constant `BUTTON_COLOR_INACTIVE` (src/main.rs line 43): 0.200. -/
def BUTTON_COLOR_INACTIVE : ℚ := 1/5

/-- Constant `BUTTON_COLOR_ACTIVE` (src/main.rs line 44): 0.400. -/
def BUTTON_COLOR_ACTIVE : ℚ := 2/5

/-! ### Cell geometry

The formulas below appear verbatim twice in the source: in
`FunctionLayer::draw` (lines 278-280) and in `button_hit` (lines 430-432).
They are defined once here and used by both embeddings. -/

/-- Embeds `width as f64 / (num + 1) as f64` (src/main.rs lines 278 and 430). -/
def buttonWidth (num width : ℕ) : ℚ :=
  (width : ℚ) / ((num : ℚ) + 1)

/-- Embeds `(width as f64 - num as f64 * button_width) / (num - 1) as f64`
(src/main.rs lines 279-280 and 431); `num - 1` is `u32` subtraction,
embedded as truncated `ℕ` subtraction. -/
def spacingWidth (num width : ℕ) : ℚ :=
  ((width : ℚ) - (num : ℚ) * buttonWidth num width) / ((num - 1 : ℕ) : ℚ)

/-- Embeds `idx as f64 * (button_width + spacing_width)` (src/main.rs lines 295
and 432). -/
def leftEdge (num width idx : ℕ) : ℚ :=
  (idx : ℚ) * (buttonWidth num width + spacingWidth num width)

/-- Embeds `button_hit` (src/main.rs lines 429-437). -/
def button_hit (num idx width height : ℕ) (x y : ℚ) : Bool :=
  if x < leftEdge num width idx ∨ x > leftEdge num width idx + buttonWidth num width then
    false
  else
    decide ((9/100 : ℚ) * (height : ℚ) < y) && decide (y < (91/100 : ℚ) * (height : ℚ))

/-! ### Dirty-region renderer (`FunctionLayer::draw`) -/

/-- Embeds `drm::control::ClipRect` (u16 coordinates, embedded as `ℕ`). -/
structure ClipRect where
  x1 : ℕ
  y1 : ℕ
  x2 : ℕ
  y2 : ℕ
  deriving DecidableEq, Repr

/-- Abstract record of the cairo drawing calls made by
`FunctionLayer::draw`: the full-surface black clear (line 284-287), the
per-button background-band erase (lines 296-314), the rounded-rectangle
active/inactive background fill (lines 336-371), and the foreground
content paint (lines 372-377). -/
inductive PaintOp where
  | clearAll
  | eraseCell (idx : ℕ)
  | background (idx : ℕ) (color : ℚ)
  | foreground (idx : ℕ)
  deriving DecidableEq, Repr

/-- The condition guarding the rounded-rectangle background fill
(src/main.rs lines 321-335): not a Time/Unknown/Macro button, and either
not a launcher-style button (WWW/AllApplications/Calc/File/Prog1-4) or
currently active. -/
def drawsBackground (action : Key) (active : Bool) : Bool :=
  (decide (action ≠ Key.Time) && decide (action ≠ Key.Unknown) &&
   decide (action ≠ Key.Macro1) && decide (action ≠ Key.Macro2) &&
   decide (action ≠ Key.Macro3) && decide (action ≠ Key.Macro4)) &&
  ((decide (action ≠ Key.WWW) && decide (action ≠ Key.AllApplications) &&
    decide (action ≠ Key.Calc) && decide (action ≠ Key.File) &&
    decide (action ≠ Key.Prog1) && decide (action ≠ Key.Prog2) &&
    decide (action ≠ Key.Prog3) && decide (action ≠ Key.Prog4)) ||
   active)

/-- The `ClipRect` pushed for one repainted button (src/main.rs lines
380-394); `height` and `width` are the rotated surface dimensions, `num`
the button count.  `as u16` casts of nonnegative floats are `Nat.floor`,
and `radius as u16 = 8`, `bot = 0.15 * height`, `top = 0.85 * height`
(lines 281-283). -/
def clipOfButton (height width num idx : ℕ) (b : Button) : ClipRect :=
  let le : ℕ := ⌊leftEdge num width idx⌋₊
  let bw : ℕ := ⌊buttonWidth num width⌋₊
  let botf : ℕ := ⌊(15/100 : ℚ) * (height : ℚ)⌋₊
  let topf : ℕ := ⌊(85/100 : ℚ) * (height : ℚ)⌋₊
  if b.action = Key.Time then
    ⟨height - topf - 8, le, height - botf + 8, le + bw * 3⟩
  else
    ⟨height - topf - 8, le, height - botf + 8, le + bw⟩

/-- The paint operations performed for one repainted button, in source
order: erase band only when not a complete redraw (line 296), background
only under `drawsBackground` (line 321), foreground always (lines
372-377). -/
def buttonPaintOps (idx : ℕ) (b : Button) (complete_redraw : Bool) : List PaintOp :=
  (if complete_redraw then [] else [PaintOp.eraseCell idx]) ++
  (if drawsBackground b.action b.active then
     [PaintOp.background idx (if b.active then BUTTON_COLOR_ACTIVE else BUTTON_COLOR_INACTIVE)]
   else []) ++
  [PaintOp.foreground idx]

/-- The `for (i, button) in self.buttons.iter_mut().enumerate()` loop of
`FunctionLayer::draw` (src/main.rs lines 290-395): skips a button when it
is unchanged and this is not a complete redraw; otherwise paints it,
clears its `changed` flag and pushes its clip rectangle. -/
def drawLoop (height width num : ℕ) (complete_redraw : Bool) :
    ℕ → List Button → List Button × List ClipRect × List PaintOp
  | _, [] => ([], [], [])
  | i, b :: rest =>
    let r := drawLoop height width num complete_redraw (i + 1) rest
    if !b.changed && !complete_redraw then
      (b :: r.1, r.2.1, r.2.2)
    else
      ({ b with changed := false } :: r.1,
       clipOfButton height width num i b :: r.2.1,
       buttonPaintOps i b complete_redraw ++ r.2.2)

/-- Embeds `FunctionLayer::draw` (src/main.rs lines 266-407).  `height` is
`surface.width()` (the strip height) and `width` is `surface.height()`
(the strip length) — the surface is rotated.  Returns the updated button
list, the returned clip rectangles (one full-surface rectangle on a
complete redraw, lines 397-403; otherwise the accumulated
`modified_regions`, line 405) and the recorded paint operations. -/
def FunctionLayer.draw (buttons : List Button) (height width : ℕ)
    (complete_redraw : Bool) : List Button × List ClipRect × List PaintOp :=
  let r := drawLoop height width buttons.length complete_redraw 0 buttons
  (r.1,
   if complete_redraw then [⟨0, 0, height, width⟩] else r.2.1,
   (if complete_redraw then [PaintOp.clearAll] else []) ++ r.2.2)

/-! ### Framebuffer flush (the copy loop in `main`, src/main.rs lines 730-740)

Byte buffers are embedded as total functions `ℕ → ℕ` from flat byte
offset to byte value. -/

/-- One iteration of the inner row loop (src/main.rs lines 735-739):
`fb[range] = data[range]` where `range = offset..offset+len` and
`offset = base_offset + i * pitch`.  The same range indexes both the
surface `data` and the framebuffer. -/
def copyRow (pitch base_offset len : ℕ) (data : ℕ → ℕ) (fb : ℕ → ℕ) (i : ℕ) : ℕ → ℕ :=
  fun addr =>
    if base_offset + i * pitch ≤ addr ∧ addr < base_offset + i * pitch + len then
      data addr
    else
      fb addr

/-- The per-clip copy (src/main.rs lines 731-739): `base_offset` and `len`
are computed from the clip with the hardware pitch and `cpp`, and each of
the `clip.y2 - clip.y1` rows is copied. -/
def copyClip (pitch cpp : ℕ) (data : ℕ → ℕ) (c : ClipRect) (fb : ℕ → ℕ) : ℕ → ℕ :=
  let base_offset := c.y1 * pitch + c.x1 * cpp
  let len := (c.x2 - c.x1) * cpp
  (List.range (c.y2 - c.y1)).foldl (fun acc i => copyRow pitch base_offset len data acc i) fb

/-- The outer `for clip in &clips` loop (src/main.rs line 730). -/
def copyClips (pitch cpp : ℕ) (data : ℕ → ℕ) (clips : List ClipRect) (fb : ℕ → ℕ) : ℕ → ℕ :=
  clips.foldl (fun acc c => copyClip pitch cpp data c acc) fb

/-- Modelled from the spec: the byte of the off-screen surface that the
spec calls "the corresponding surface pixel" of row `i`, byte `off` of a
clip rectangle — indexed with the surface's own row pitch
(`surfacePitch`), which the spec says generally differs from the hardware
pitch.  Used only to compare the spec's words with the code's behaviour. -/
def specSourceByte (surfacePitch cpp : ℕ) (data : ℕ → ℕ) (c : ClipRect) (i off : ℕ) : ℕ :=
  data (c.y1 * surfacePitch + c.x1 * cpp + i * surfacePitch + off)

/-! ### Configuration (src/main.rs lines 469-511) -/

/-- Embeds `LayerType` (src/main.rs lines 469-476), `repr(usize)`. -/
inductive LayerType where
  | function
  | special
  | specialExtended
  deriving DecidableEq, Repr

/-- The `as usize` value of a `LayerType` (`repr(usize)` discriminants). -/
def LayerType.toNat : LayerType → ℕ
  | .function => 0
  | .special => 1
  | .specialExtended => 2

/-- Embeds `UiConfig` (src/main.rs lines 478-484). -/
structure UiConfig where
  primary_layer : LayerType
  secondary_layer : LayerType
  font : String
  icon_theme : String
  deriving DecidableEq, Repr

/-- Embeds `AppConfig` (src/main.rs lines 486-493). -/
structure AppConfig where
  app_icon_theme : String
  app1_icon : String
  app2_icon : String
  app3_icon : String
  app4_icon : String
  deriving DecidableEq, Repr

/-- Embeds `TimeConfig` (src/main.rs lines 495-498), `use_24_hr: u16`. -/
structure TimeConfig where
  use_24_hr : ℕ
  deriving DecidableEq, Repr

/-- Embeds `Config` (src/main.rs lines 500-505). -/
structure Config where
  ui : UiConfig
  apps : AppConfig
  time : TimeConfig
  deriving DecidableEq, Repr

/-- Embeds `initialize_layers` (src/main.rs lines 520-627): the five fixed layers
built from the configuration.  Icon loading is abstracted by the
`iconImg` oracle (see `Button.new_icon`); the config read inside the
function is the same file the caller just parsed, passed here as `config`. -/
def initialize_layers (config : Config) (iconImg : String → String → String → ButtonImage) :
    List (List Button) :=
  let primary_layer_buttons := [
    Button.new_text "esc" Key.Esc,
    Button.new_text "F1" Key.F1,
    Button.new_text "F2" Key.F2,
    Button.new_text "F3" Key.F3,
    Button.new_text "F4" Key.F4,
    Button.new_text "F5" Key.F5,
    Button.new_text "F6" Key.F6,
    Button.new_text "F7" Key.F7,
    Button.new_text "F8" Key.F8,
    Button.new_text "F9" Key.F9,
    Button.new_text "F10" Key.F10,
    Button.new_text "F11" Key.F11,
    Button.new_text "F12" Key.F12]
  let secondary_layer_buttons := [
    Button.new_text "esc" Key.Esc,
    Button.new_icon "Brightness_low" Key.BrightnessDown "display-brightness-low-symbolic" config.ui.icon_theme iconImg,
    Button.new_icon "Brightness_high" Key.BrightnessUp "display-brightness-high-symbolic" config.ui.icon_theme iconImg,
    Button.new_icon "Mic_mute" Key.MicMute "microphone-disabled-symbolic" config.ui.icon_theme iconImg,
    Button.new_icon "Search" Key.Search "system-search-symbolic" config.ui.icon_theme iconImg,
    Button.new_icon "Keyboard_brightness_low" Key.IllumDown "keyboard-brightness-low-symbolic" config.ui.icon_theme iconImg,
    Button.new_icon "Keyboard_brightness_high" Key.IllumUp "keyboard-brightness-high-symbolic" config.ui.icon_theme iconImg,
    Button.new_icon "Previous_song" Key.PreviousSong "media-seek-backward-symbolic" config.ui.icon_theme iconImg,
    Button.new_icon "Play/Pause" Key.PlayPause "media-playback-start-symbolic" config.ui.icon_theme iconImg,
    Button.new_icon "Next_song" Key.NextSong "media-seek-forward-symbolic" config.ui.icon_theme iconImg,
    Button.new_icon "Mute" Key.Mute "audio-volume-muted-symbolic" config.ui.icon_theme iconImg,
    Button.new_icon "Decrease_volume" Key.VolumeDown "audio-volume-low-symbolic" config.ui.icon_theme iconImg,
    Button.new_icon "Increase_volume" Key.VolumeUp "audio-volume-high-symbolic" config.ui.icon_theme iconImg]
  let tertiary_layer_buttons := [
    Button.new_text "esc" Key.Esc,
    Button.new_icon "app1" Key.Prog1 config.apps.app1_icon config.apps.app_icon_theme iconImg,
    Button.new_icon "app2" Key.Prog2 config.apps.app2_icon config.apps.app_icon_theme iconImg,
    Button.new_icon "app3" Key.Prog3 config.apps.app3_icon config.apps.app_icon_theme iconImg,
    Button.new_icon "app4" Key.Prog4 config.apps.app4_icon config.apps.app_icon_theme iconImg,
    Button.new_icon "Show_utility_apps" Key.Macro1 "go-next-symbolic" config.ui.icon_theme iconImg,
    Button.new_time config.time.use_24_hr,
    Button.new_blank,
    Button.new_blank,
    Button.new_icon "Decrease_volume" Key.VolumeDown "audio-volume-low-symbolic" config.ui.icon_theme iconImg,
    Button.new_icon "Increase_volume" Key.VolumeUp "audio-volume-high-symbolic" config.ui.icon_theme iconImg,
    Button.new_icon "Play/Pause" Key.PlayPause "media-playback-start-symbolic" config.ui.icon_theme iconImg,
    Button.new_icon "Search" Key.Search "system-search-symbolic" config.ui.icon_theme iconImg,
    Button.new_icon "All_media_controls" Key.Macro3 "go-next-symbolic" config.ui.icon_theme iconImg]
  let tertiary2_layer_buttons := [
    Button.new_text "esc" Key.Esc,
    Button.new_icon "Show_custom_apps" Key.Macro2 "go-previous-symbolic" config.ui.icon_theme iconImg,
    Button.new_icon "Web_browser" Key.WWW "web-browser-symbolic" config.ui.icon_theme iconImg,
    Button.new_icon "Calculator" Key.Calc "accessories-calculator-symbolic" config.ui.icon_theme iconImg,
    Button.new_icon "File_browser" Key.File "system-file-manager-symbolic" config.ui.icon_theme iconImg,
    Button.new_icon "Apps" Key.AllApplications "view-app-grid-symbolic" config.ui.icon_theme iconImg,
    Button.new_time config.time.use_24_hr,
    Button.new_blank,
    Button.new_blank,
    Button.new_icon "Decrease_volume" Key.VolumeDown "audio-volume-low-symbolic" config.ui.icon_theme iconImg,
    Button.new_icon "Increase_volume" Key.VolumeUp "audio-volume-high-symbolic" config.ui.icon_theme iconImg,
    Button.new_icon "Play/Pause" Key.PlayPause "media-playback-start-symbolic" config.ui.icon_theme iconImg,
    Button.new_icon "Search" Key.Search "system-search-symbolic" config.ui.icon_theme iconImg,
    Button.new_icon "All_media_controls" Key.Macro3 "go-next-symbolic" config.ui.icon_theme iconImg]
  let tertiary3_layer_buttons := [
    Button.new_text "esc" Key.Esc,
    Button.new_icon "Show_custom_apps" Key.Macro2 "go-previous-symbolic" config.ui.icon_theme iconImg,
    Button.new_icon "Brightness_low" Key.BrightnessDown "display-brightness-low-symbolic" config.ui.icon_theme iconImg,
    Button.new_icon "Brightness_high" Key.BrightnessUp "display-brightness-high-symbolic" config.ui.icon_theme iconImg,
    Button.new_icon "Mic_mute" Key.MicMute "microphone-disabled-symbolic" config.ui.icon_theme iconImg,
    Button.new_icon "Keyboard_brightness_low" Key.IllumDown "keyboard-brightness-low-symbolic" config.ui.icon_theme iconImg,
    Button.new_icon "Keyboard_brightness_high" Key.IllumUp "keyboard-brightness-high-symbolic" config.ui.icon_theme iconImg,
    Button.new_icon "Previous_Song" Key.PreviousSong "media-seek-backward-symbolic" config.ui.icon_theme iconImg,
    Button.new_icon "Play/Pause" Key.PlayPause "media-playback-start-symbolic" config.ui.icon_theme iconImg,
    Button.new_icon "Next_Song" Key.NextSong "media-seek-forward-symbolic" config.ui.icon_theme iconImg,
    Button.new_icon "Mute" Key.Mute "audio-volume-muted-symbolic" config.ui.icon_theme iconImg,
    Button.new_icon "Decrease_volume" Key.VolumeDown "audio-volume-low-symbolic" config.ui.icon_theme iconImg,
    Button.new_icon "Increase_volume" Key.VolumeUp "audio-volume-high-symbolic" config.ui.icon_theme iconImg]
  [primary_layer_buttons, secondary_layer_buttons, tertiary_layer_buttons,
   tertiary2_layer_buttons, tertiary3_layer_buttons]

/-! ### Event-loop state (the mutable locals of `main`, src/main.rs
lines 629-695) -/

/-- The mutable world owned by the event loop: the stored configuration,
the remembered file modification time, the active layer index, the layer
set, the pending-full-redraw flag and the touch-session table
(`touches: HashMap<slot, (layer, button)>`, embedded as a total function
to `Option`). -/
structure LoopState where
  config : Config
  lastModified : Option ℕ
  activeLayer : ℕ
  layers : List (List Button)
  needsCompleteRedraw : Bool
  touches : ℕ → Option (ℕ × ℕ)

/-- Embeds `as u32` on a nonneg `f64`: truncate toward zero, saturating (used for
the candidate-button computation on touch down, src/main.rs line 787). -/
def ratToU32 (q : ℚ) : ℕ :=
  min (Int.toNat ⌊q⌋) (2 ^ 32 - 1)

/-- The `TouchEvent::Down` handler (src/main.rs lines 784-806): compute
the candidate cell from `x`, confirm with `button_hit`; skip no-op/clock
buttons; otherwise record the session and activate the button.  Indexing
`buttons[btn]` is embedded with `List.get?`; the `none` case is
unreachable when `button_hit` succeeded. -/
def touchDown (width height : ℕ) (st : LoopState) (slot : ℕ) (x y : ℚ) :
    LoopState × List InputEvent :=
  let buttons := st.layers.getD st.activeLayer []
  let btn := ratToU32 (x / ((width : ℚ) / (buttons.length : ℚ)))
  if button_hit buttons.length btn width height x y then
    match buttons.get? btn with
    | some b =>
      if b.action = Key.Unknown ∨ b.action = Key.Time then
        (st, [])
      else
        let r := b.set_active true
        ({ st with
            touches := fun s => if s = slot then some (st.activeLayer, btn) else st.touches s,
            layers := st.layers.set st.activeLayer (buttons.set btn r.1) },
         r.2)
    | none => (st, [])
  else
    (st, [])

/-- The `TouchEvent::Motion` handler (src/main.rs lines 807-828): ignore
untracked slots; otherwise re-run `button_hit` against the session's
recorded `(layer, button)`, skip no-op/clock buttons, and set the tracked
button's `active` to the hit result. -/
def touchMotion (width height : ℕ) (st : LoopState) (slot : ℕ) (x y : ℚ) :
    LoopState × List InputEvent :=
  match st.touches slot with
  | none => (st, [])
  | some (layer, btn) =>
    let buttons := st.layers.getD layer []
    let hit := button_hit buttons.length btn width height x y
    match buttons.get? btn with
    | some b =>
      if b.action = Key.Unknown ∨ b.action = Key.Time then
        (st, [])
      else
        let r := b.set_active hit
        ({ st with layers := st.layers.set layer (buttons.set btn r.1) }, r.2)
    | none => (st, [])

/-- The `TouchEvent::Up` handler (src/main.rs lines 829-839): ignore
untracked slots; otherwise skip no-op/clock buttons and force the tracked
button inactive.  Note: the handler contains no `touches.remove` — the
session stays in the table. -/
def touchUp (st : LoopState) (slot : ℕ) : LoopState × List InputEvent :=
  match st.touches slot with
  | none => (st, [])
  | some (layer, btn) =>
    let buttons := st.layers.getD layer []
    match buttons.get? btn with
    | some b =>
      if b.action = Key.Unknown ∨ b.action = Key.Time then
        (st, [])
      else
        let r := b.set_active false
        ({ st with layers := st.layers.set layer (buttons.set btn r.1) }, r.2)
    | none => (st, [])

/-- The `Event::Keyboard` handler (src/main.rs lines 758-778): the Fn key
momentarily selects the secondary layer, and the Macro1/Macro2/Macro3
keys, on press only, unconditionally select layers 3, 2 and 4. -/
def keyStep (st : LoopState) (key : Key) (ks : KeyState) : LoopState :=
  if key = Key.Fn then
    let new_layer :=
      match ks with
      | KeyState.pressed => st.config.ui.secondary_layer.toNat
      | KeyState.released => st.config.ui.primary_layer.toNat
    if st.activeLayer ≠ new_layer then
      { st with activeLayer := new_layer, needsCompleteRedraw := true }
    else st
  else if key = Key.Macro1 ∧ ks = KeyState.pressed then
    { st with activeLayer := 3, needsCompleteRedraw := true }
  else if key = Key.Macro2 ∧ ks = KeyState.pressed then
    { st with activeLayer := 2, needsCompleteRedraw := true }
  else if key = Key.Macro3 ∧ ks = KeyState.pressed then
    { st with activeLayer := 4, needsCompleteRedraw := true }
  else st

/-- The configuration-reload branch at the top of the loop (src/main.rs
lines 697-717): when the modification time changed, a successful parse
installs the new config, remembers the new time, rebuilds the layers
(dropping each layer's first button on narrow panels, lines 704-708),
resets the active layer to the configured primary and forces a full
redraw; a parse failure only logs and changes nothing. -/
def configReloadStep (width : ℕ) (iconImg : String → String → String → ButtonImage)
    (st : LoopState) (currentModifiedTime : Option ℕ) (parsed : Option Config) : LoopState :=
  if currentModifiedTime ≠ st.lastModified then
    match parsed with
    | some new_config =>
      let ls := initialize_layers new_config iconImg
      let ls := if width < 2170 then ls.map (fun l => l.drop 1) else ls
      { st with
          config := new_config,
          lastModified := currentModifiedTime,
          layers := ls,
          activeLayer := new_config.ui.primary_layer.toNat,
          needsCompleteRedraw := true }
    | none => st
  else st

/-- A touch event after libinput coordinate transformation. -/
inductive TouchEv where
  | down (slot : ℕ) (x y : ℚ)
  | motion (slot : ℕ) (x y : ℚ)
  | up (slot : ℕ)

/-- One state-relevant stimulus of the event loop. -/
inductive LoopEvent where
  | keyEv (k : Key) (s : KeyState)
  | touchEv (t : TouchEv)
  | reloadEv (t : Option ℕ) (parsed : Option Config)

/-- One dispatch step of the event loop: the state transition and the
events written to the uinput device. -/
def loopStep (width height : ℕ) (iconImg : String → String → String → ButtonImage)
    (st : LoopState) : LoopEvent → LoopState × List InputEvent
  | LoopEvent.keyEv k s => (keyStep st k s, [])
  | LoopEvent.touchEv (TouchEv.down slot x y) => touchDown width height st slot x y
  | LoopEvent.touchEv (TouchEv.motion slot x y) => touchMotion width height st slot x y
  | LoopEvent.touchEv (TouchEv.up slot) => touchUp st slot
  | LoopEvent.reloadEv t parsed => (configReloadStep width iconImg st t parsed, [])

/-! ### Geometry lemmas -/

theorem buttonWidth_nonneg (num width : ℕ) : 0 ≤ buttonWidth num width := by
  unfold buttonWidth
  positivity

theorem spacingWidth_eq (num width : ℕ) (hn : 2 ≤ num) :
    spacingWidth num width = (width : ℚ) / (((num : ℚ) + 1) * ((num : ℚ) - 1)) := by
  have h1 : (1 : ℕ) ≤ num := le_trans (by norm_num) hn
  have h2 : ((num : ℚ) + 1) ≠ 0 := by positivity
  have h3 : ((num : ℚ) - 1) ≠ 0 := by
    have : (2 : ℚ) ≤ (num : ℚ) := by exact_mod_cast hn
    intro h
    rw [sub_eq_zero] at h
    rw [h] at this
    norm_num at this
  unfold spacingWidth buttonWidth
  rw [Nat.cast_sub h1]
  push_cast
  field_simp
  ring

theorem spacingWidth_nonneg (num width : ℕ) (hn : 2 ≤ num) :
    0 ≤ spacingWidth num width := by
  rw [spacingWidth_eq num width hn]
  have h1 : (0 : ℚ) ≤ (width : ℚ) := Nat.cast_nonneg width
  have h2 : (0 : ℚ) < ((num : ℚ) + 1) * ((num : ℚ) - 1) := by
    have : (2 : ℚ) ≤ (num : ℚ) := by exact_mod_cast hn
    have ha : (0 : ℚ) < (num : ℚ) + 1 := by linarith
    have hb : (0 : ℚ) < (num : ℚ) - 1 := by linarith
    positivity
  positivity

theorem leftEdge_mono (num width : ℕ) (hn : 2 ≤ num) {i j : ℕ} (hij : i ≤ j) :
    leftEdge num width i ≤ leftEdge num width j := by
  unfold leftEdge
  have hpitch : 0 ≤ buttonWidth num width + spacingWidth num width :=
    add_nonneg (buttonWidth_nonneg num width) (spacingWidth_nonneg num width hn)
  have : (i : ℚ) ≤ (j : ℚ) := by exact_mod_cast hij
  exact mul_le_mul_of_nonneg_right this hpitch

/-- C3: for every button count `num ≥ 2` and index `idx < num`,
`button_hit` returns `true` at any point strictly inside cell `idx`
horizontally and strictly inside the 9%–91% vertical band, and returns
`false` whenever `y` is outside that band or `x` lies in the inter-button
gap between two consecutive cells. -/
theorem C3_button_hit (num idx width height : ℕ) (x y : ℚ)
    (hn : 2 ≤ num) (_hi : idx < num) :
    (leftEdge num width idx < x ∧ x < leftEdge num width idx + buttonWidth num width ∧
      (9/100 : ℚ) * (height : ℚ) < y ∧ y < (91/100 : ℚ) * (height : ℚ) →
      button_hit num idx width height x y = true)
    ∧ (y ≤ (9/100 : ℚ) * (height : ℚ) ∨ (91/100 : ℚ) * (height : ℚ) ≤ y →
      button_hit num idx width height x y = false)
    ∧ (∀ j, j + 1 < num →
        leftEdge num width j + buttonWidth num width < x →
        x < leftEdge num width (j + 1) →
        button_hit num idx width height x y = false) := by
  refine ⟨?_, ?_, ?_⟩
  · rintro ⟨hx1, hx2, hy1, hy2⟩
    unfold button_hit
    rw [if_neg]
    · simp [hy1, hy2]
    · push_neg
      exact ⟨le_of_lt hx1, le_of_lt hx2⟩
  · intro hy
    unfold button_hit
    split
    · rfl
    · rcases hy with hy | hy
      · simp [not_lt.mpr hy]
      · simp [not_lt.mpr hy]
  · intro j hj hgl hgr
    unfold button_hit
    rw [if_pos]
    rcases le_or_lt idx j with hle | hlt
    · right
      calc leftEdge num width idx + buttonWidth num width
          ≤ leftEdge num width j + buttonWidth num width := by
            have := leftEdge_mono num width hn hle
            linarith
        _ < x := hgl
    · left
      calc x < leftEdge num width (j + 1) := hgr
        _ ≤ leftEdge num width idx := leftEdge_mono num width hn hlt

/-- C3 witness: a concrete point strictly inside cell 1 of a 4-button,
400-wide, 60-tall strip hits. -/
theorem C3_button_hit_witness : button_hit 4 1 400 60 120 30 = true :=
  (C3_button_hit 4 1 400 60 120 30 (by norm_num) (by norm_num)).1
    (by norm_num [leftEdge, buttonWidth, spacingWidth])

/-- C4 amended: the shared cell geometry gives `num` cells of width
`width / (num + 1)` with uniform inter-button spacing
`width / ((num + 1) * (num - 1))`, and the cells span the strip exactly:
the left edge of cell 0 is exactly 0 and the right edge of the last cell
is exactly `width` (there is no half-button inset at the strip edges). -/
theorem C4_cell_geometry (num width : ℕ) (hn : 2 ≤ num) :
    buttonWidth num width = (width : ℚ) / ((num : ℚ) + 1)
    ∧ spacingWidth num width = (width : ℚ) / (((num : ℚ) + 1) * ((num : ℚ) - 1))
    ∧ (∀ i, leftEdge num width (i + 1) - (leftEdge num width i + buttonWidth num width)
          = spacingWidth num width)
    ∧ leftEdge num width 0 = 0
    ∧ leftEdge num width (num - 1) + buttonWidth num width = (width : ℚ) := by
  have h1 : (1 : ℕ) ≤ num := le_trans (by norm_num) hn
  have h2 : ((num : ℚ) + 1) ≠ 0 := by positivity
  have h3 : ((num : ℚ) - 1) ≠ 0 := by
    have : (2 : ℚ) ≤ (num : ℚ) := by exact_mod_cast hn
    intro h
    rw [sub_eq_zero] at h
    rw [h] at this
    norm_num at this
  refine ⟨rfl, spacingWidth_eq num width hn, ?_, ?_, ?_⟩
  · intro i
    unfold leftEdge
    push_cast
    ring
  · unfold leftEdge
    ring
  · unfold leftEdge
    rw [Nat.cast_sub h1, spacingWidth_eq num width hn]
    unfold buttonWidth
    push_cast
    field_simp
    ring

/-- C4 witness: with 2 buttons on a strip of width 4, the cell width is
4/3 and the left edge of cell 0 is exactly 0. -/
theorem C4_cell_geometry_witness :
    buttonWidth 2 4 = (4 : ℚ) / ((2 : ℚ) + 1) :=
  (C4_cell_geometry 2 4 (by norm_num)).1

/-- C4 counterexample: the claim's half-button inset fails — with 2
buttons on a strip of width 4 the left edge of cell 0 is not strictly
positive (and the right edge of the last cell is not strictly below the
strip width). -/
theorem C4_inset_counterexample :
    ¬ (0 < leftEdge 2 4 0 ∧ leftEdge 2 4 (2 - 1) + buttonWidth 2 4 < 4) := by
  rintro ⟨h0, h1⟩
  rw [show leftEdge 2 4 0 = 0 by norm_num [leftEdge]] at h0
  exact lt_irrefl 0 h0

/-! ### Background-chrome rule (C5) -/

/-- The button kinds that never receive a background (src/main.rs lines
321-326): no-op, clock and the macro keys. -/
def chromelessKeys : List Key :=
  [Key.Time, Key.Unknown, Key.Macro1, Key.Macro2, Key.Macro3, Key.Macro4]

/-- The launcher-style button kinds (src/main.rs lines 327-334), which get
a background only while active. -/
def launcherKeys : List Key :=
  [Key.WWW, Key.AllApplications, Key.Calc, Key.File,
   Key.Prog1, Key.Prog2, Key.Prog3, Key.Prog4]

theorem drawsBackground_cases (a : Key) (v : Bool) :
    (a ∈ chromelessKeys → drawsBackground a v = false)
    ∧ (a ∈ launcherKeys → drawsBackground a v = v)
    ∧ (a ∉ chromelessKeys → a ∉ launcherKeys → drawsBackground a v = true) := by
  revert v
  revert a
  decide

/-- C5 amended: during a repaint, a button receives the rounded-rectangle
background (brighter when active, dimmer when inactive) exactly under
`drawsBackground`: never for the no-op/clock/macro kinds — not even when
active — for the launcher-style kinds only while active, and always for
every other kind. -/
theorem C5_background_rule (b : Button) (idx : ℕ) (cr : Bool) :
    (b.action ∈ chromelessKeys → drawsBackground b.action b.active = false)
    ∧ (b.action ∈ launcherKeys → drawsBackground b.action b.active = b.active)
    ∧ (b.action ∉ chromelessKeys → b.action ∉ launcherKeys →
        drawsBackground b.action b.active = true)
    ∧ (PaintOp.background idx
          (if b.active then BUTTON_COLOR_ACTIVE else BUTTON_COLOR_INACTIVE)
        ∈ buttonPaintOps idx b cr
      ↔ drawsBackground b.action b.active = true) := by
  refine ⟨(drawsBackground_cases b.action b.active).1,
          (drawsBackground_cases b.action b.active).2.1,
          (drawsBackground_cases b.action b.active).2.2, ?_⟩
  unfold buttonPaintOps
  cases h : drawsBackground b.action b.active <;> cases cr <;>
    simp [h, BUTTON_COLOR_ACTIVE, BUTTON_COLOR_INACTIVE]

/-- C5 witness: an ordinary F1 text button (neither chromeless nor
launcher-style) always draws its background. -/
theorem C5_background_rule_witness :
    drawsBackground (Button.new_text "F1" Key.F1).action
      (Button.new_text "F1" Key.F1).active = true :=
  (C5_background_rule (Button.new_text "F1" Key.F1) 0 false).2.2.1
    (by decide) (by decide)

/-- C5 counterexample: a macro button (a chromeless kind) that is active
still draws no background, contradicting the claim that an active
chromeless-kind button has its background drawn. -/
theorem C5_active_macro_counterexample :
    drawsBackground Key.Macro1 true = false
    ∧ PaintOp.background 0 BUTTON_COLOR_ACTIVE ∉
        buttonPaintOps 0 ⟨ButtonImage.blank, true, true, Key.Macro1⟩ true := by
  decide

/-- C7: `set_active` leaves the image and action untouched and makes
`active` equal to the requested value; when the value is unchanged it is a
complete no-op (no flag change, no emission), and otherwise it marks the
button dirty and emits exactly one key event for the button's action with
value 1 (press) or 0 (release) immediately followed by exactly one
synchronize/report event. -/
theorem C7_set_active (b : Button) (v : Bool) :
    (b.set_active v).1.active = v
    ∧ (b.set_active v).1.action = b.action
    ∧ (b.set_active v).1.image = b.image
    ∧ (b.set_active v).1.changed = (if b.active = v then b.changed else true)
    ∧ (b.set_active v).2 =
        (if b.active = v then []
         else [⟨EvKind.key, some b.action, if v then 1 else 0⟩,
               ⟨EvKind.synchronize, none, 0⟩]) := by
  by_cases h : b.active = v <;>
    simp [Button.set_active, toggle_key, h]

/-- C8: a failed configuration reload (modification time may have changed
but the file fails to parse) is a complete no-op on the loop state — the
stored config, the remembered modification time, the layer set and the
active layer index are all unchanged — and emits nothing. -/
theorem C8_reload_failure_noop (width height : ℕ)
    (iconImg : String → String → String → ButtonImage)
    (st : LoopState) (t : Option ℕ) :
    loopStep width height iconImg st (LoopEvent.reloadEv t none) = (st, []) := by
  show (configReloadStep width iconImg st t none, []) = (st, [])
  unfold configReloadStep
  split <;> rfl

/-- C9: the three macro keys are wired to fixed layer indices — Macro1 to
layer 3, Macro2 to layer 2, Macro3 to layer 4 — and a press installs that
index unconditionally (in every state, whatever the current active layer)
and forces a full redraw, while a release of a macro key leaves the whole
state unchanged. -/
theorem C9_macro_layer_switch (st : LoopState) :
    ((keyStep st Key.Macro1 KeyState.pressed).activeLayer = 3
      ∧ (keyStep st Key.Macro1 KeyState.pressed).needsCompleteRedraw = true
      ∧ (keyStep st Key.Macro1 KeyState.pressed).layers = st.layers
      ∧ (keyStep st Key.Macro1 KeyState.pressed).touches = st.touches)
    ∧ ((keyStep st Key.Macro2 KeyState.pressed).activeLayer = 2
      ∧ (keyStep st Key.Macro2 KeyState.pressed).needsCompleteRedraw = true)
    ∧ ((keyStep st Key.Macro3 KeyState.pressed).activeLayer = 4
      ∧ (keyStep st Key.Macro3 KeyState.pressed).needsCompleteRedraw = true)
    ∧ keyStep st Key.Macro1 KeyState.released = st
    ∧ keyStep st Key.Macro2 KeyState.released = st
    ∧ keyStep st Key.Macro3 KeyState.released = st := by
  refine ⟨⟨?_, ?_, ?_, ?_⟩, ⟨?_, ?_⟩, ⟨?_, ?_⟩, ?_, ?_, ?_⟩ <;>
    simp [keyStep]

/-! ### Draw-loop lemmas (C6) -/

/-- Extracts the index of a foreground paint operation. -/
def fgIdx : PaintOp → Option ℕ
  | PaintOp.foreground i => some i
  | _ => none

theorem filterMap_fgIdx_buttonPaintOps (i : ℕ) (b : Button) (cr : Bool) :
    (buttonPaintOps i b cr).filterMap fgIdx = [i] := by
  unfold buttonPaintOps
  cases cr <;> cases h : drawsBackground b.action b.active <;>
    simp [h, fgIdx]

theorem drawLoop_full_buttons (height width num i : ℕ) (bs : List Button) :
    (drawLoop height width num true i bs).1
      = bs.map (fun b => { b with changed := false }) := by
  induction bs generalizing i with
  | nil => rfl
  | cons b t ih => simp [drawLoop, ih]

theorem drawLoop_full_fg (height width num i : ℕ) (bs : List Button) :
    ((drawLoop height width num true i bs).2.2).filterMap fgIdx
      = List.range' i bs.length := by
  induction bs generalizing i with
  | nil => rfl
  | cons b t ih =>
    simp [drawLoop, List.filterMap_append, filterMap_fgIdx_buttonPaintOps,
      ih (i + 1), List.range'_succ]

theorem drawLoop_incremental_clips (height width num i : ℕ) (bs : List Button) :
    (drawLoop height width num false i bs).2.1.length
      = (bs.filter (fun b => b.changed)).length := by
  induction bs generalizing i with
  | nil => rfl
  | cons b t ih =>
    cases hb : b.changed <;> simp [drawLoop, hb, ih (i + 1)]

theorem keyStep_layer_change_redraw (st : LoopState) (k : Key) (ks : KeyState)
    (hk : (keyStep st k ks).activeLayer ≠ st.activeLayer) :
    (keyStep st k ks).needsCompleteRedraw = true := by
  unfold keyStep at *
  dsimp only at hk ⊢
  split_ifs at hk ⊢ <;> first | rfl | exact absurd rfl hk

/-- C6: a complete redraw clears the whole surface, repaints every button
(clearing every `changed` flag, with one foreground paint per index) and
returns exactly one full-surface clip rectangle, while an incremental
draw returns one clip rectangle per dirty button; and any key-driven
layer switch forces the full-redraw flag for the next render pass. -/
theorem C6_full_redraw (bs : List Button) (height width : ℕ)
    (st : LoopState) (k : Key) (ks : KeyState)
    (hk : (keyStep st k ks).activeLayer ≠ st.activeLayer) :
    (FunctionLayer.draw bs height width true).2.1 = [⟨0, 0, height, width⟩]
    ∧ (FunctionLayer.draw bs height width true).1
        = bs.map (fun b => { b with changed := false })
    ∧ PaintOp.clearAll ∈ (FunctionLayer.draw bs height width true).2.2
    ∧ ((FunctionLayer.draw bs height width true).2.2).filterMap fgIdx
        = List.range bs.length
    ∧ (FunctionLayer.draw bs height width false).2.1.length
        = (bs.filter (fun b => b.changed)).length
    ∧ (keyStep st k ks).needsCompleteRedraw = true := by
  refine ⟨rfl, drawLoop_full_buttons height width bs.length 0 bs, ?_, ?_, ?_,
    keyStep_layer_change_redraw st k ks hk⟩
  · simp [FunctionLayer.draw]
  · show (PaintOp.clearAll :: (drawLoop height width bs.length true 0 bs).2.2).filterMap fgIdx
        = List.range bs.length
    rw [List.range_eq_range']
    simpa [fgIdx] using drawLoop_full_fg height width bs.length 0 bs
  · exact drawLoop_incremental_clips height width bs.length 0 bs

/-- C6 witness: a concrete full redraw of a one-button layer returns the
single full-surface clip rectangle (a concrete macro-key press supplies
the layer-switch hypothesis). -/
theorem C6_full_redraw_witness :
    (FunctionLayer.draw [Button.new_text "esc" Key.Esc] 60 400 true).2.1
      = [⟨0, 0, 60, 400⟩] :=
  (C6_full_redraw [Button.new_text "esc" Key.Esc] 60 400
    ⟨⟨⟨LayerType.function, LayerType.special, "sans", "hicolor"⟩,
      ⟨"hicolor", "a1", "a2", "a3", "a4"⟩, ⟨0⟩⟩,
     none, 0, [], false, fun _ => none⟩
    Key.Macro1 KeyState.pressed (by decide)).1

/-! ### Framebuffer-copy lemmas (C2) -/

theorem copyRow_preserve (pitch b len : ℕ) (data acc : ℕ → ℕ) (i addr : ℕ)
    (h : acc addr = data addr) :
    copyRow pitch b len data acc i addr = data addr := by
  unfold copyRow
  split
  · rfl
  · exact h

theorem foldl_copyRow_preserve (pitch b len : ℕ) (data : ℕ → ℕ) (l : List ℕ)
    (acc : ℕ → ℕ) (addr : ℕ) (h : acc addr = data addr) :
    (l.foldl (fun a i => copyRow pitch b len data a i) acc) addr = data addr := by
  induction l generalizing acc with
  | nil => exact h
  | cons j t ih => exact ih _ (copyRow_preserve pitch b len data acc j addr h)

theorem foldl_copyRow_hit (pitch b len : ℕ) (data : ℕ → ℕ) (l : List ℕ)
    (acc : ℕ → ℕ) (i addr : ℕ) (hm : i ∈ l)
    (hlo : b + i * pitch ≤ addr) (hhi : addr < b + i * pitch + len) :
    (l.foldl (fun a j => copyRow pitch b len data a j) acc) addr = data addr := by
  induction l generalizing acc with
  | nil => cases hm
  | cons j t ih =>
    simp only [List.foldl_cons]
    rcases List.mem_cons.mp hm with rfl | hmem
    · apply foldl_copyRow_preserve
      unfold copyRow
      rw [if_pos ⟨hlo, hhi⟩]
    · exact ih _ hmem

theorem copyClip_cases (pitch cpp : ℕ) (data : ℕ → ℕ) (c : ClipRect)
    (fb : ℕ → ℕ) (addr : ℕ) :
    copyClip pitch cpp data c fb addr = data addr
    ∨ copyClip pitch cpp data c fb addr = fb addr := by
  unfold copyClip
  generalize List.range (c.y2 - c.y1) = l
  induction l generalizing fb with
  | nil => exact Or.inr rfl
  | cons j t ih =>
    simp only [List.foldl_cons]
    rcases ih (copyRow pitch (c.y1 * pitch + c.x1 * cpp) ((c.x2 - c.x1) * cpp) data fb j)
      with h | h
    · exact Or.inl h
    · rw [h]
      unfold copyRow
      split
      · exact Or.inl rfl
      · exact Or.inr rfl

theorem copyClip_preserve (pitch cpp : ℕ) (data : ℕ → ℕ) (c : ClipRect)
    (acc : ℕ → ℕ) (addr : ℕ) (h : acc addr = data addr) :
    copyClip pitch cpp data c acc addr = data addr := by
  rcases copyClip_cases pitch cpp data c acc addr with h2 | h2 <;> rw [h2]
  exact h

theorem foldl_copyClip_preserve (pitch cpp : ℕ) (data : ℕ → ℕ) (l : List ClipRect)
    (acc : ℕ → ℕ) (addr : ℕ) (h : acc addr = data addr) :
    (l.foldl (fun a c => copyClip pitch cpp data c a) acc) addr = data addr := by
  induction l generalizing acc with
  | nil => exact h
  | cons c t ih => exact ih _ (copyClip_preserve pitch cpp data c acc addr h)

theorem copyClip_hit (pitch cpp : ℕ) (data : ℕ → ℕ) (c : ClipRect)
    (fb : ℕ → ℕ) (i off : ℕ)
    (hi : i < c.y2 - c.y1) (hoff : off < (c.x2 - c.x1) * cpp) :
    copyClip pitch cpp data c fb (c.y1 * pitch + c.x1 * cpp + i * pitch + off)
      = data (c.y1 * pitch + c.x1 * cpp + i * pitch + off) := by
  unfold copyClip
  exact foldl_copyRow_hit pitch (c.y1 * pitch + c.x1 * cpp) ((c.x2 - c.x1) * cpp)
    data (List.range (c.y2 - c.y1)) fb i
    (c.y1 * pitch + c.x1 * cpp + i * pitch + off)
    (List.mem_range.mpr hi) (by omega) (by omega)

/-- C2 amended: for every clip rectangle in the flushed list, every byte
of every row of the rectangle's vertical extent in the framebuffer equals
the surface byte at the very same flat offset — both the source and the
destination offset are computed from the hardware row pitch (`base_offset
+ i * pitch + off`); the code does not use a separate surface row pitch
for the source side. -/
theorem C2_copy_rows (pitch cpp : ℕ) (data fb : ℕ → ℕ) (clips : List ClipRect)
    (c : ClipRect) (hc : c ∈ clips) (i off : ℕ)
    (hi : i < c.y2 - c.y1) (hoff : off < (c.x2 - c.x1) * cpp) :
    copyClips pitch cpp data clips fb (c.y1 * pitch + c.x1 * cpp + i * pitch + off)
      = data (c.y1 * pitch + c.x1 * cpp + i * pitch + off) := by
  unfold copyClips
  induction clips generalizing fb with
  | nil => cases hc
  | cons c0 t ih =>
    simp only [List.foldl_cons]
    rcases List.mem_cons.mp hc with rfl | hmem
    · exact foldl_copyClip_preserve pitch cpp data t _ _
        (copyClip_hit pitch cpp data c fb i off hi hoff)
    · exact ih _ hmem

/-- C2 witness: with hardware pitch 4 and one byte per pixel, the byte for
row 0, offset 0 of the clip `(x1, y1, x2, y2) = (0, 1, 1, 2)` lands at
flat offset 4 and equals the surface byte at the same offset. -/
theorem C2_copy_rows_witness :
    copyClips 4 1 (fun n => n) [⟨0, 1, 1, 2⟩] (fun _ => 99)
        (1 * 4 + 0 * 1 + 0 * 4 + 0)
      = (fun n => (n : ℕ)) (1 * 4 + 0 * 1 + 0 * 4 + 0) :=
  C2_copy_rows 4 1 (fun n => n) (fun _ => 99) [⟨0, 1, 1, 2⟩] ⟨0, 1, 1, 2⟩
    (by simp) 0 0 (by norm_num) (by norm_num)

/-- C2 counterexample: when the surface row pitch (2) differs from the
hardware row pitch (4), the byte the code places in the framebuffer for
row 0 of clip `(0, 1, 1, 2)` is the surface byte at the hardware-pitch
offset (4), not the spec's "corresponding surface pixel" at the
surface-pitch offset (2): with `data n = n` the code writes 4 where the
claim demands 2. -/
theorem C2_pitch_counterexample :
    copyClips 4 1 (fun n => n) [⟨0, 1, 1, 2⟩] (fun _ => 99) 4 = 4
    ∧ specSourceByte 2 1 (fun n => n) ⟨0, 1, 1, 2⟩ 0 0 = 2
    ∧ copyClips 4 1 (fun n => n) [⟨0, 1, 1, 2⟩] (fun _ => 99) 4
        ≠ specSourceByte 2 1 (fun n => n) ⟨0, 1, 1, 2⟩ 0 0 := by
  refine ⟨rfl, rfl, ?_⟩
  decide

/-! ### Touch-up behaviour (C1) -/

/-- A concrete configuration for exercising the event-loop handlers. -/
def sampleConfig : Config :=
  ⟨⟨LayerType.function, LayerType.special, "sans", "hicolor"⟩,
   ⟨"hicolor", "a1", "a2", "a3", "a4"⟩, ⟨0⟩⟩

/-- A concrete loop state: a single 2-button layer whose F1 button is
currently held (active) and tracked by touch slot 0 at `(layer 0,
button 1)`. -/
def sampleState : LoopState :=
  ⟨sampleConfig, none, 0,
   [[Button.new_text "esc" Key.Esc,
     { Button.new_text "F1" Key.F1 with active := true }]],
   false,
   fun s => if s = 0 then some (0, 1) else none⟩

/-- C1: evaluating the Up handler at a tracked slot shows the divergence
from the claim — the button is released (one release emission), but the
slot's session is NOT removed from the table, and a subsequent motion
event on the same slot (with no intervening down) is consequently NOT
ignored: it re-activates the button and emits a fresh press. -/
theorem C1_up_leaves_session :
    (touchUp sampleState 0).1.touches 0 = some (0, 1)
    ∧ (touchUp sampleState 0).2
        = [⟨EvKind.key, some Key.F1, 0⟩, ⟨EvKind.synchronize, none, 0⟩]
    ∧ (touchMotion 400 60 (touchUp sampleState 0).1 0 300 30).2
        = [⟨EvKind.key, some Key.F1, 1⟩, ⟨EvKind.synchronize, none, 0⟩] := by
  refine ⟨by decide, by decide, ?_⟩
  have hhit : button_hit 2 1 400 60 300 30 = true := by
    unfold button_hit
    rw [if_neg]
    · norm_num
    · push_neg
      norm_num [leftEdge, buttonWidth, spacingWidth]
  simp [touchMotion, touchUp, sampleState, sampleConfig, Button.new_text, hhit,
    Button.set_active, toggle_key]

/-! ### Sentinel-button invariant (C10): helper lemmas -/

/-- The invariant: every no-op (`Unknown`) or clock (`Time`) button in
every layer is inactive. -/
def InactiveSentinels (layers : List (List Button)) : Prop :=
  ∀ l ∈ layers, ∀ b ∈ l, (b.action = Key.Unknown ∨ b.action = Key.Time) → b.active = false

theorem set_active_action (b : Button) (v : Bool) :
    (b.set_active v).1.action = b.action := by
  unfold Button.set_active
  split <;> rfl

theorem set_active_events (b : Button) (v : Bool) (ev : InputEvent)
    (h : ev ∈ (b.set_active v).2) : ev.key = some b.action ∨ ev.key = none := by
  unfold Button.set_active toggle_key at h
  split at h
  · rcases List.mem_cons.mp h with rfl | h2
    · left; rfl
    · rcases List.mem_cons.mp h2 with rfl | h3
      · right; rfl
      · cases h3
  · cases h

theorem set_active_no_sentinel_events (b : Button) (v : Bool)
    (hns : ¬ (b.action = Key.Unknown ∨ b.action = Key.Time)) :
    ∀ ev ∈ (b.set_active v).2, ev.key ≠ some Key.Unknown ∧ ev.key ≠ some Key.Time := by
  intro ev hev
  rcases set_active_events b v ev hev with h | h <;> rw [h]
  · constructor <;> intro hc
    · injection hc with h2
      exact hns (Or.inl h2)
    · injection hc with h2
      exact hns (Or.inr h2)
  · exact ⟨by simp, by simp⟩

theorem lt_of_get?_some {α : Type} {l : List α} {n : ℕ} {a : α}
    (h : l.get? n = some a) : n < l.length := by
  rcases List.get?_eq_some.mp h with ⟨h1, _⟩
  exact h1

theorem getD_nil_mem_or_eq {α : Type} (l : List (List α)) (n : ℕ) :
    l.getD n [] ∈ l ∨ l.getD n [] = [] := by
  induction l generalizing n with
  | nil => right; cases n <;> rfl
  | cons a t ih =>
    cases n with
    | zero => left; exact List.mem_cons_self a t
    | succ m =>
      rcases ih m with h | h
      · left; exact List.mem_cons_of_mem a h
      · right; exact h

theorem getD_nil_eq_of_le {α : Type} (l : List (List α)) (n : ℕ)
    (h : l.length ≤ n) : l.getD n [] = [] := by
  induction l generalizing n with
  | nil => cases n <;> rfl
  | cons a t ih =>
    cases n with
    | zero => simp at h
    | succ m => exact ih m (by simpa using h)

theorem lt_of_getD_nil_ne {α : Type} (l : List (List α)) (n : ℕ)
    (h : l.getD n [] ≠ []) : n < l.length := by
  by_contra hn
  push_neg at hn
  exact h (getD_nil_eq_of_le l n hn)

theorem getD_set_self {α : Type} (l : List (List α)) (n : ℕ) (bs : List α)
    (h : n < l.length) : (l.set n bs).getD n [] = bs := by
  induction l generalizing n with
  | nil => simp at h
  | cons a t ih =>
    cases n with
    | zero => rfl
    | succ m => exact ih m (by simpa using h)

theorem get?_set_self {α : Type} (l : List α) (n : ℕ) (a : α)
    (h : n < l.length) : (l.set n a).get? n = some a := by
  induction l generalizing n with
  | nil => simp at h
  | cons x t ih =>
    cases n with
    | zero => rfl
    | succ m => exact ih m (by simpa using h)

theorem initialize_layers_inactive (c : Config)
    (f : String → String → String → ButtonImage) :
    ∀ l ∈ initialize_layers c f, ∀ b ∈ l, b.active = false := by
  intro l hl b hb
  simp only [initialize_layers, List.mem_cons, List.not_mem_nil, or_false] at hl
  rcases hl with rfl | rfl | rfl | rfl | rfl <;> fin_cases hb <;> rfl

theorem rebuilt_layers_inactive (cfg : Config)
    (iconImg : String → String → String → ButtonImage) (width : ℕ) :
    InactiveSentinels
      (if width < 2170 then (initialize_layers cfg iconImg).map (fun l => l.drop 1)
       else initialize_layers cfg iconImg) := by
  intro l hl b hb _
  split_ifs at hl with h
  · rcases List.mem_map.mp hl with ⟨l0, hl0, rfl⟩
    exact initialize_layers_inactive cfg iconImg l0 hl0 b (List.mem_of_mem_drop hb)
  · exact initialize_layers_inactive cfg iconImg l hl b hb

theorem keyStep_layers_touches (st : LoopState) (k : Key) (ks : KeyState) :
    (keyStep st k ks).layers = st.layers ∧ (keyStep st k ks).touches = st.touches := by
  unfold keyStep
  dsimp only
  split_ifs <;> exact ⟨rfl, rfl⟩

theorem touch_update_invariant (st : LoopState) (li bi : ℕ) (b : Button) (v : Bool)
    (hns : ¬ (b.action = Key.Unknown ∨ b.action = Key.Time))
    (hInv : InactiveSentinels st.layers) :
    InactiveSentinels
      (st.layers.set li ((st.layers.getD li []).set bi (b.set_active v).1)) := by
  intro l hl b2 hb2 hsent
  rcases List.mem_or_eq_of_mem_set hl with hl2 | rfl
  · exact hInv l hl2 b2 hb2 hsent
  · rcases List.mem_or_eq_of_mem_set hb2 with hb3 | rfl
    · rcases getD_nil_mem_or_eq st.layers li with hm | he
      · exact hInv _ hm b2 hb3 hsent
      · rw [he] at hb3
        cases hb3
    · rw [set_active_action] at hsent
      exact absurd hsent hns

theorem touchDown_spec (width height : ℕ) (st : LoopState) (slot : ℕ) (x y : ℚ)
    (hInv : InactiveSentinels st.layers) :
    InactiveSentinels (touchDown width height st slot x y).1.layers
    ∧ (∀ ev ∈ (touchDown width height st slot x y).2,
        ev.key ≠ some Key.Unknown ∧ ev.key ≠ some Key.Time)
    ∧ (∀ s li bi, (touchDown width height st slot x y).1.touches s = some (li, bi) →
        st.touches s = some (li, bi) ∨
        ∃ btn, ((touchDown width height st slot x y).1.layers.getD li []).get? bi = some btn
          ∧ btn.action ≠ Key.Unknown ∧ btn.action ≠ Key.Time) := by
  unfold touchDown
  dsimp only
  split
  · split
    next b heq =>
      split_ifs with hs
      · exact ⟨hInv, ⟨fun ev h => (List.not_mem_nil ev h).elim,
          fun s li bi h => Or.inl h⟩⟩
      · have hbl := lt_of_get?_some heq
        have hll : st.activeLayer < st.layers.length := by
          apply lt_of_getD_nil_ne
          intro hnil
          rw [hnil] at heq
          cases heq
        refine ⟨touch_update_invariant st st.activeLayer _ b true hs hInv,
          set_active_no_sentinel_events b true hs, ?_⟩
        intro s li bi h
        dsimp only at h
        by_cases hss : s = slot
        · rw [if_pos hss] at h
          simp only [Option.some.injEq, Prod.mk.injEq] at h
          obtain ⟨rfl, rfl⟩ := h
          right
          refine ⟨(b.set_active true).1, ?_, ?_, ?_⟩
          · dsimp only
            rw [getD_set_self st.layers st.activeLayer _ hll,
              get?_set_self _ _ _ hbl]
          · rw [set_active_action]
            intro hc
            exact hs (Or.inl hc)
          · rw [set_active_action]
            intro hc
            exact hs (Or.inr hc)
        · rw [if_neg hss] at h
          exact Or.inl h
    next heq => exact ⟨hInv, ⟨fun ev h => (List.not_mem_nil ev h).elim,
      fun s li bi h => Or.inl h⟩⟩
  · exact ⟨hInv, ⟨fun ev h => (List.not_mem_nil ev h).elim,
      fun s li bi h => Or.inl h⟩⟩

theorem touchMotion_spec (width height : ℕ) (st : LoopState) (slot : ℕ) (x y : ℚ)
    (hInv : InactiveSentinels st.layers) :
    InactiveSentinels (touchMotion width height st slot x y).1.layers
    ∧ (∀ ev ∈ (touchMotion width height st slot x y).2,
        ev.key ≠ some Key.Unknown ∧ ev.key ≠ some Key.Time)
    ∧ (touchMotion width height st slot x y).1.touches = st.touches := by
  unfold touchMotion
  split
  · exact ⟨hInv, ⟨fun ev h => (List.not_mem_nil ev h).elim, rfl⟩⟩
  · dsimp only
    split
    next b heq =>
      split_ifs with hs
      · exact ⟨hInv, ⟨fun ev h => (List.not_mem_nil ev h).elim, rfl⟩⟩
      · exact ⟨touch_update_invariant st _ _ b _ hs hInv,
          ⟨set_active_no_sentinel_events b _ hs, rfl⟩⟩
    next heq => exact ⟨hInv, ⟨fun ev h => (List.not_mem_nil ev h).elim, rfl⟩⟩

theorem touchUp_spec (st : LoopState) (slot : ℕ)
    (hInv : InactiveSentinels st.layers) :
    InactiveSentinels (touchUp st slot).1.layers
    ∧ (∀ ev ∈ (touchUp st slot).2,
        ev.key ≠ some Key.Unknown ∧ ev.key ≠ some Key.Time)
    ∧ (touchUp st slot).1.touches = st.touches := by
  unfold touchUp
  split
  · exact ⟨hInv, ⟨fun ev h => (List.not_mem_nil ev h).elim, rfl⟩⟩
  · dsimp only
    split
    next b heq =>
      split_ifs with hs
      · exact ⟨hInv, ⟨fun ev h => (List.not_mem_nil ev h).elim, rfl⟩⟩
      · exact ⟨touch_update_invariant st _ _ b _ hs hInv,
          ⟨set_active_no_sentinel_events b _ hs, rfl⟩⟩
    next heq => exact ⟨hInv, ⟨fun ev h => (List.not_mem_nil ev h).elim, rfl⟩⟩

theorem configReloadStep_cases (width : ℕ)
    (iconImg : String → String → String → ButtonImage)
    (st : LoopState) (t : Option ℕ) (p : Option Config) :
    configReloadStep width iconImg st t p = st
    ∨ ∃ cfg,
        (configReloadStep width iconImg st t p).layers
          = (if width < 2170 then
               (initialize_layers cfg iconImg).map (fun l => l.drop 1)
             else initialize_layers cfg iconImg)
        ∧ (configReloadStep width iconImg st t p).touches = st.touches := by
  unfold configReloadStep
  split
  · cases p with
    | none => left; rfl
    | some cfg => right; exact ⟨cfg, rfl, rfl⟩
  · left; rfl

instance (layers : List (List Button)) : Decidable (InactiveSentinels layers) := by
  unfold InactiveSentinels
  infer_instance

/-- C10: buttons whose action is the no-op (`Unknown`) or clock (`Time`)
sentinel are inactive in every reachable state and never emit: freshly
built layers satisfy the invariant, every loop step preserves it, no step
emits a key event whose code is a sentinel, and any session a step
creates points at a non-sentinel button (the down handler refuses
sentinel buttons); motion and up steps skip `set_active` for sentinel
sessions, so the invariant survives even stale sessions after a layer
rebuild. -/
theorem C10_sentinel_invariant (width height : ℕ)
    (iconImg : String → String → String → ButtonImage)
    (c : Config) (st : LoopState) (e : LoopEvent)
    (hInv : InactiveSentinels st.layers) :
    InactiveSentinels (initialize_layers c iconImg)
    ∧ InactiveSentinels (loopStep width height iconImg st e).1.layers
    ∧ (∀ ev ∈ (loopStep width height iconImg st e).2,
        ev.key ≠ some Key.Unknown ∧ ev.key ≠ some Key.Time)
    ∧ (∀ slot li bi,
        (loopStep width height iconImg st e).1.touches slot = some (li, bi) →
        st.touches slot = some (li, bi) ∨
        ∃ btn, ((loopStep width height iconImg st e).1.layers.getD li []).get? bi = some btn
          ∧ btn.action ≠ Key.Unknown ∧ btn.action ≠ Key.Time) := by
  refine ⟨fun l hl b hb _ => initialize_layers_inactive c iconImg l hl b hb, ?_⟩
  cases e with
  | keyEv k s =>
    obtain ⟨hl, ht⟩ := keyStep_layers_touches st k s
    dsimp only [loopStep]
    refine ⟨?_, ?_, ?_⟩
    · rw [hl]
      exact hInv
    · intro ev h
      cases h
    · intro slot li bi h
      rw [ht] at h
      exact Or.inl h
  | touchEv te =>
    cases te with
    | down slot x y => exact touchDown_spec width height st slot x y hInv
    | motion slot x y =>
      obtain ⟨h1, h2, h3⟩ := touchMotion_spec width height st slot x y hInv
      exact ⟨h1, h2, fun s li bi h => Or.inl (h3 ▸ h)⟩
    | up slot =>
      obtain ⟨h1, h2, h3⟩ := touchUp_spec st slot hInv
      exact ⟨h1, h2, fun s li bi h => Or.inl (h3 ▸ h)⟩
  | reloadEv t p =>
    dsimp only [loopStep]
    rcases configReloadStep_cases width iconImg st t p with heq | ⟨cfg, hl, ht⟩
    · refine ⟨?_, ?_, ?_⟩
      · rw [heq]
        exact hInv
      · intro ev h
        cases h
      · intro slot li bi h
        rw [heq] at h
        exact Or.inl h
    · refine ⟨?_, ?_, ?_⟩
      · rw [hl]
        exact rebuilt_layers_inactive cfg iconImg width
      · intro ev h
        cases h
      · intro slot li bi h
        rw [ht] at h
        exact Or.inl h

/-- C10 witness: the invariant holds concretely after an Up step on the
sample state. -/
theorem C10_sentinel_invariant_witness :
    InactiveSentinels
      (loopStep 400 60 (fun _ _ _ => ButtonImage.blank) sampleState
        (LoopEvent.touchEv (TouchEv.up 0))).1.layers :=
  (C10_sentinel_invariant 400 60 (fun _ _ _ => ButtonImage.blank) sampleConfig
    sampleState (LoopEvent.touchEv (TouchEv.up 0)) (by decide)).2.1
